import Mathlib

/-!
Shallow embedding of the Order Receiving and Inventory Reconciliation logic of
the mon-app-pieces repository (a React + Supabase application).

The repository ships several near-duplicate implementations of the receiving
path.  We embed the two behaviourally distinct ones:

* `createReceiptWithItems`   — the receiving path of the second App component
  (src/src/App.tsx lines 2313-2345): validates every entered line up front
  (over-receipt and missing location abort the whole batch before any write),
  then inserts one receipt row and one batch of receipt_items.  It touches
  neither the inventory table nor the order status.
* `createReceiptWithItemsV1` — the receiving path of the first App component
  (src/src/App.tsx lines 473-599, same code as src/unnamed/part_001 lines
  330-456): silently drops invalid or over-receipt lines, inserts the receipt,
  then per line inserts receipt_items and stock_moves and upserts inventory,
  and finally recomputes the order status via maybeMarkOrderPartial /
  maybeMarkOrderReceived.

Database writes are independent network calls in the source; we model their
possible failure with an oracle `wfail : Nat -> Bool` consulted at each write
(indexed in issue order).  `noFail` is the oracle under which every write
succeeds.  Each operation returns the database it left behind together with
an optional error, so partial effects of failed operations are observable.

Quantities are JavaScript numbers fed through parseInt/Number with positivity
checks; we model them as integers.  Falsy-string coercions of the source
(empty string, missing map entry) are modelled with Option.
-/

namespace MonApp

/-- Order lifecycle states, as in the source union type
"draft" | "ordered" | "partially_received" | "received" | "cancelled". -/
inductive Status where
  | draft
  | ordered
  | partially_received
  | received
  | cancelled
deriving DecidableEq, Repr

/-- Physical condition of received stock; the source uses the string union
"neuf" | "rec" | "occ" (the middle constructor is renamed `recond` because
`rec` is reserved in Lean). -/
inductive Condition where
  | neuf
  | recond
  | occ
deriving DecidableEq, Repr

/-- A row of the orders table (the fields the receiving core reads). -/
structure Order where
  id : Nat
  supplier_id : Nat
  site : String
  status : Status
deriving DecidableEq, Repr

/-- A row of the order_items table.  `part_id` is null (`none`) for a line
whose supplier reference is not yet resolved to a part. -/
structure OrderItem where
  id : Nat
  order_id : Nat
  part_id : Option Nat
  supplier_ref : Option String
  qty : Int
deriving DecidableEq, Repr

/-- A row of the receipts table. -/
structure Receipt where
  id : Nat
  order_id : Nat
  site : String
deriving DecidableEq, Repr

/-- A row of the receipt_items table. -/
structure ReceiptItem where
  receipt_id : Nat
  order_item_id : Nat
  qty_received : Int
  condition : Condition
  location : Option String
deriving DecidableEq, Repr

/-- A row of the stock_moves table (written by the older receiving path). -/
structure StockMove where
  part_id : Option Nat
  site_to : String
  qty : Int
  condition : Condition
  related_order_id : Nat
deriving DecidableEq, Repr

/-- A row of the inventory table, keyed by (site, part_id, condition). -/
structure InvRow where
  site : String
  part_id : Option Nat
  condition : Condition
  qty : Int
  location : Option String
deriving DecidableEq, Repr

/-- A row of the supplier_part_refs table. -/
structure SupplierPartRef where
  part_id : Nat
  supplier_id : Nat
  supplier_ref : String
  product_url : Option String
deriving DecidableEq, Repr

/-- A row of the pending_refs table. -/
structure PendingRef where
  id : Nat
  supplier_id : Nat
  supplier_ref : String
deriving DecidableEq, Repr

/-- The database state.  `nextId` mints fresh receipt ids (the real store
generates them server-side). -/
structure DB where
  orders : List Order
  order_items : List OrderItem
  receipts : List Receipt
  receipt_items : List ReceiptItem
  stock_moves : List StockMove
  inventory : List InvRow
  supplier_part_refs : List SupplierPartRef
  pending_refs : List PendingRef
  nextId : Nat
deriving DecidableEq, Repr

/-- Errors surfaced by the embedded operations (the source reports them
through notify(...) messages and aborts). -/
inductive OpError where
  | siteRequired
  | overReceipt (itemId : Nat)
  | locationRequired (itemId : Nat)
  | noLines
  | partRequired
  | dbError
deriving DecidableEq, Repr

/-- Result of a mutating operation: the database it left behind (the writes
are independent network calls, so a failed operation can still have changed
the store) and the error it reported, if any. -/
structure OpOut where
  db : DB
  err : Option OpError
deriving DecidableEq, Repr

/-- Write-failure oracle context: `wfail n` tells whether the n-th database
write issued by the operation fails; `idx` counts the writes issued so far. -/
structure WCtx where
  wfail : Nat → Bool
  idx : Nat

/-- Consult the oracle for the next write. -/
def writeOk (c : WCtx) : Bool × WCtx :=
  (!(c.wfail c.idx), { c with idx := c.idx + 1 })

/-- The oracle under which every write succeeds. -/
def noFail : Nat → Bool := fun _ => false

/-- Sum of qty_received over the receipt item rows of one order item
(the client builds exactly this aggregate in loadOrderItems). -/
def sumReceivedIn (ris : List ReceiptItem) (itemId : Nat) : Int :=
  ((ris.filter (fun r => r.order_item_id == itemId)).map (fun r => r.qty_received)).sum

/-- receivedByItem map entry for one order item id. -/
def receivedFor (db : DB) (itemId : Nat) : Int :=
  sumReceivedIn db.receipt_items itemId

/-- remainingFor (src/src/App.tsx line 2311): max(qty - received, 0). -/
def remainingFor (db : DB) (it : OrderItem) : Int :=
  max (it.qty - receivedFor db it.id) 0

/-- knownLocationBySitePart (src/src/App.tsx lines 2305-2309): the first
inventory row for (site, part) with a truthy location, scanning the loaded
inventory list in order. -/
def knownLocationBySitePart (inv : List InvRow) (site : String) (pid : Option Nat) : Option String :=
  (inv.find? (fun r => r.location.isSome && r.site == site && r.part_id == pid)).bind
    (fun r => r.location)

/-- JavaScript falsy-string coercion: empty string maps to none. -/
def optStr (s : String) : Option String :=
  if s = "" then none else some s

/-- String.trim of the source's location inputs, written structurally over
the character list (the library's String.trim is defined by well-founded
recursion on byte positions and does not reduce definitionally). -/
def strTrim (s : String) : String :=
  ⟨((s.data.dropWhile Char.isWhitespace).reverse.dropWhile Char.isWhitespace).reverse⟩

/-- The receiving form state: the parsed quantity entered per order item id
(none if the field is empty or unparseable), the chosen condition per item,
and the location entered per (site, part) key. -/
structure ReceiveForm where
  toReceive : Nat → Option Int
  cond : Nat → Option Condition
  locByPart : String → Option Nat → String

/-- Site selection shared by every receiving path in the source:
mySite || receiveSite || activeOrder?.site || "" (src/src/App.tsx line 2315,
line 475; src/unnamed/part_001 line 332). -/
def chooseSite (db : DB) (profileSite receiveSite : String) (orderId : Nat) : String :=
  if profileSite ≠ "" then profileSite
  else if receiveSite ≠ "" then receiveSite
  else (((db.orders.find? (fun o => o.id == orderId)).map (fun o => o.site)).getD "")

/-- A validated line of the newer receiving path. -/
structure LineV2 where
  oi : OrderItem
  qty : Int
  cond : Condition
  loc : Option String
deriving Repr

/-- The location the newer path attaches to a line:
existingLoc || trim(receiveLocByPart) || undefined (src/src/App.tsx 2326-2327). -/
def locChoiceV2 (db : DB) (site : String) (form : ReceiveForm) (it : OrderItem) : Option String :=
  match knownLocationBySitePart db.inventory site it.part_id with
  | some l => some l
  | none => optStr (strTrim (form.locByPart site it.part_id))

/-- The validation loop of the newer receiving path (src/src/App.tsx
lines 2318-2330): per item of the order, skip empty or non-positive
quantities, abort the whole batch on over-receipt, abort when no location is
known and none was supplied, otherwise collect the line. -/
def buildLinesV2 (db : DB) (site : String) (form : ReceiveForm) :
    List OrderItem → Except OpError (List LineV2)
  | [] => .ok []
  | it :: rest =>
    match form.toReceive it.id with
    | none => buildLinesV2 db site form rest
    | some q =>
      if q ≤ 0 then buildLinesV2 db site form rest
      else if remainingFor db it < q then .error (.overReceipt it.id)
      else
        let cond := (form.cond it.id).getD Condition.neuf
        let existingLoc := knownLocationBySitePart db.inventory site it.part_id
        let loc := locChoiceV2 db site form it
        if existingLoc = none ∧ loc = none then .error (.locationRequired it.id)
        else (buildLinesV2 db site form rest).map (fun ls => ⟨it, q, cond, loc⟩ :: ls)

/-- createReceiptWithItems of the second App component (src/src/App.tsx lines
2313-2345): choose the site, validate all lines (aborting on over-receipt or
missing location before any write), then insert one receipt row and one batch
of receipt_items.  No inventory write and no status recompute happen in this
path. -/
def createReceiptWithItems (db : DB) (profileSite receiveSite : String)
    (activeOrderId : Nat) (form : ReceiveForm) (wfail : Nat → Bool) : OpOut :=
  let site := chooseSite db profileSite receiveSite activeOrderId
  if site = "" then ⟨db, some .siteRequired⟩
  else
    match buildLinesV2 db site form (db.order_items.filter (fun it => it.order_id == activeOrderId)) with
    | .error e => ⟨db, some e⟩
    | .ok lines =>
      if lines.isEmpty then ⟨db, some .noLines⟩
      else if wfail 0 then ⟨db, some .dbError⟩
      else
        let rid := db.nextId
        let db1 : DB := { db with nextId := db.nextId + 1,
                                  receipts := db.receipts ++ [⟨rid, activeOrderId, site⟩] }
        if wfail 1 then ⟨db1, some .dbError⟩
        else ⟨{ db1 with receipt_items := db1.receipt_items ++
                  lines.map (fun l => ⟨rid, l.oi.id, l.qty, l.cond, l.loc⟩) }, none⟩

/-- A validated entry of the older receiving path. -/
structure EntryV1 where
  oi : OrderItem
  qty : Int
  cond : Condition
  location : Option String
deriving Repr

/-- The entry builder of the older receiving path (src/src/App.tsx lines
479-491; src/unnamed/part_001 lines 336-353): lines with empty, unparseable
or non-positive quantity are dropped, lines exceeding the remaining quantity
are dropped as well (the batch proceeds without them), and the location is
knownLocationBySitePart || receiveLocByPart || null with no requirement that
it be set. -/
def buildEntriesV1 (db : DB) (site : String) (form : ReceiveForm)
    (items : List OrderItem) : List EntryV1 :=
  items.filterMap fun oi =>
    match form.toReceive oi.id with
    | none => none
    | some q =>
      if q ≤ 0 then none
      else if remainingFor db oi < q then none
      else some ⟨oi, q, (form.cond oi.id).getD Condition.neuf,
        match knownLocationBySitePart db.inventory site oi.part_id with
        | some l => some l
        | none => optStr (form.locByPart site oi.part_id)⟩

/-- The inventory upsert of the older receiving path (src/src/App.tsx lines
537-581; src/unnamed/part_001 lines 394-431).  The primary path is a
PostgREST upsert with onConflict (site, part_id, condition): it inserts the
row when absent and otherwise REPLACES the supplied columns (qty, location)
of the conflicting row.  Only when that call errors does the code fall back
to a manual additive update (qty := old + delta, location := old || new). -/
def upsertInventory (db : DB) (site : String) (pid : Option Nat)
    (cond : Condition) (loc : Option String) (q : Int) (c : WCtx) :
    DB × WCtx × Option OpError :=
  let key := fun (r : InvRow) => r.site == site && r.part_id == pid && r.condition == cond
  let (ok, c) := writeOk c
  if ok then
    if db.inventory.any key then
      ({ db with inventory := db.inventory.map (fun r =>
          if key r then { r with qty := q, location := loc } else r) }, c, none)
    else
      ({ db with inventory := db.inventory ++ [⟨site, pid, cond, q, loc⟩] }, c, none)
  else
    match db.inventory.find? key with
    | some row =>
      let (ok2, c) := writeOk c
      if ok2 then
        ({ db with inventory := db.inventory.map (fun r =>
            if key r then { r with qty := row.qty + q,
                                   location := row.location.or loc } else r) }, c, none)
      else (db, c, some .dbError)
    | none =>
      let (ok2, c) := writeOk c
      if ok2 then
        ({ db with inventory := db.inventory ++ [⟨site, pid, cond, q, loc⟩] }, c, none)
      else (db, c, some .dbError)

/-- The per-entry write loop of the older receiving path (src/src/App.tsx
lines 510-582; src/unnamed/part_001 lines 369-432): for each entry insert a
receipt_items row, insert a stock_moves row, then upsert inventory; any
failing write aborts the loop, keeping the writes already issued. -/
def runEntriesV1 (site : String) (orderId rid : Nat) :
    List EntryV1 → DB → WCtx → DB × WCtx × Option OpError
  | [], db, c => (db, c, none)
  | e :: rest, db, c =>
    let (ok1, c) := writeOk c
    if !ok1 then (db, c, some .dbError)
    else
      let db1 : DB := { db with receipt_items := db.receipt_items ++
        [⟨rid, e.oi.id, e.qty, e.cond, e.location⟩] }
      let (ok2, c) := writeOk c
      if !ok2 then (db1, c, some .dbError)
      else
        let db2 : DB := { db1 with stock_moves := db1.stock_moves ++
          [⟨e.oi.part_id, site, e.qty, e.cond, orderId⟩] }
        match upsertInventory db2 site e.oi.part_id e.cond e.location e.qty c with
        | (db3, c, some err) => (db3, c, some err)
        | (db3, c, none) => runEntriesV1 site orderId rid rest db3 c

/-- Modelled from the spec: the order_overview_v database view is not in
src/ (only its callers are); per the spec it exposes the aggregate ordered
quantity of an order, the sum of qty over all of the order's lines. -/
def qtyOrderedOf (db : DB) (orderId : Nat) : Int :=
  ((db.order_items.filter (fun it => it.order_id == orderId)).map (fun it => it.qty)).sum

/-- Modelled from the spec: the order_overview_v database view is not in
src/; per the spec it exposes the aggregate received quantity of an order,
the sum of qty_received over the receipt items of all of the order's lines. -/
def qtyReceivedOf (db : DB) (orderId : Nat) : Int :=
  ((db.receipt_items.filter (fun r =>
      db.order_items.any (fun it => it.id == r.order_item_id && it.order_id == orderId))).map
    (fun r => r.qty_received)).sum

/-- Replace the status of the order with the given id. -/
def updateStatus (db : DB) (orderId : Nat) (st : Status) : DB :=
  { db with orders := db.orders.map (fun o =>
      if o.id == orderId then { o with status := st } else o) }

/-- maybeMarkOrderPartial (src/src/App.tsx lines 601-614; src/unnamed/part_001
lines 581-594): read the order's aggregate ordered and received quantities
from the overview view; when 0 < received < ordered and the status is not
already partially_received, set it to partially_received.  The update's own
error is ignored by the source.  (Renamed from maybeMarkOrderPartial.) -/
def maybeMarkOrderPartialRecv (db : DB) (orderId : Nat) (c : WCtx) : DB × WCtx :=
  match db.orders.find? (fun o => o.id == orderId) with
  | none => (db, c)
  | some o =>
    let qTot := qtyOrderedOf db orderId
    let qRec := qtyReceivedOf db orderId
    if 0 < qTot ∧ 0 < qRec ∧ qRec < qTot ∧ o.status ≠ Status.partially_received then
      let (ok, c') := writeOk c
      if ok then (updateStatus db orderId Status.partially_received, c') else (db, c')
    else (db, c)

/-- maybeMarkOrderReceived (src/src/App.tsx lines 616-628; src/unnamed/part_001
lines 596-608): when ordered > 0 and received >= ordered and the status is not
already received, set it to received. -/
def maybeMarkOrderReceived (db : DB) (orderId : Nat) (c : WCtx) : DB × WCtx :=
  match db.orders.find? (fun o => o.id == orderId) with
  | none => (db, c)
  | some o =>
    let qTot := qtyOrderedOf db orderId
    let qRec := qtyReceivedOf db orderId
    if 0 < qTot ∧ qTot ≤ qRec ∧ o.status ≠ Status.received then
      let (ok, c') := writeOk c
      if ok then (updateStatus db orderId Status.received, c') else (db, c')
    else (db, c)

/-- createReceiptWithItems of the first App component (src/src/App.tsx lines
473-599, same code as src/unnamed/part_001 lines 330-456): choose the site,
build the entries (dropping invalid and over-receipt lines), insert the
receipt, run the per-entry writes, then recompute the order status. -/
def createReceiptWithItemsV1 (db : DB) (profileSite receiveSite : String)
    (activeOrderId : Nat) (form : ReceiveForm) (wfail : Nat → Bool) : OpOut :=
  let site := chooseSite db profileSite receiveSite activeOrderId
  if site = "" then ⟨db, some .siteRequired⟩
  else
    let entries := buildEntriesV1 db site form
      (db.order_items.filter (fun it => it.order_id == activeOrderId))
    if entries.isEmpty then ⟨db, some .noLines⟩
    else if wfail 0 then ⟨db, some .dbError⟩
    else
      let rid := db.nextId
      let db0 : DB := { db with nextId := db.nextId + 1,
                                receipts := db.receipts ++ [⟨rid, activeOrderId, site⟩] }
      match runEntriesV1 site activeOrderId rid entries db0 ⟨wfail, 1⟩ with
      | (db1, _, some e) => ⟨db1, some e⟩
      | (db1, c1, none) =>
        let (db2, c2) := maybeMarkOrderPartialRecv db1 activeOrderId c1
        let (db3, _) := maybeMarkOrderReceived db2 activeOrderId c2
        ⟨db3, none⟩

/-- setOrderStatus (src/src/App.tsx lines 2194-2197): unconditionally update
the order's status; the TypeScript signature restricts the target to "draft"
or "ordered" but no guard inspects the current status. -/
def setOrderStatus (db : DB) (orderId : Nat) (next : Status) : DB :=
  updateStatus db orderId next

/-- The re-link filter of approvePendingRef: order items with part_id null
and the pending reference's supplier_ref, belonging to one of the supplier's
orders. -/
def relinkFilter (ordIds : List Nat) (ref : String) (it : OrderItem) : Bool :=
  ordIds.contains it.order_id && it.part_id == none && it.supplier_ref == some ref

/-- The bulk re-link update of approvePendingRef (src/unnamed/part_000 lines
409-415; src/src/App.tsx lines 2232-2238): set part_id on every item matched
by the filter. -/
def relinkItems (items : List OrderItem) (ordIds : List Nat) (ref : String)
    (partId : Nat) : List OrderItem :=
  items.map fun it =>
    if relinkFilter ordIds ref it then { it with part_id := some partId } else it

/-- approvePendingRef (src/unnamed/part_000 lines 385-430; src/src/App.tsx
lines 2215-2253): require a selected part, insert the supplier_part_refs row,
delete the pending_refs row by id, then re-link the orphaned order items of
the supplier's orders.  A re-link failure is only notified; the approval is
still reported. -/
def approvePendingRef (db : DB) (row : PendingRef) (partId : Option Nat)
    (url : Option String) (wfail : Nat → Bool) : OpOut :=
  match partId with
  | none => ⟨db, some .partRequired⟩
  | some pid =>
    if wfail 0 then ⟨db, some .dbError⟩
    else
      let db1 : DB := { db with supplier_part_refs := db.supplier_part_refs ++
        [⟨pid, row.supplier_id, row.supplier_ref, url⟩] }
      if wfail 1 then ⟨db1, some .dbError⟩
      else
        let db2 : DB := { db1 with pending_refs := db1.pending_refs.filter (fun p => p.id != row.id) }
        let ordIds := (db2.orders.filter (fun o => o.supplier_id == row.supplier_id)).map
          (fun o => o.id)
        if ordIds.isEmpty then ⟨db2, none⟩
        else if wfail 2 then ⟨db2, none⟩
        else ⟨{ db2 with order_items := relinkItems db2.order_items ordIds row.supplier_ref pid }, none⟩

/-- The status of one order in the database. -/
def statusOf (db : DB) (orderId : Nat) : Option Status :=
  (db.orders.find? (fun o => o.id == orderId)).map (fun o => o.status)

/-- The on-hand quantity of one (site, part, condition) inventory bucket:
the sum over matching rows (unique key in the store). -/
def invQty (db : DB) (site : String) (pid : Option Nat) (cond : Condition) : Int :=
  ((db.inventory.filter (fun r =>
      r.site == site && r.part_id == pid && r.condition == cond)).map (fun r => r.qty)).sum

/-! ### Concrete fixtures used by counterexamples and witnesses -/

/-- A store with one draft order (id 1, supplier 50, site "S1") holding one
resolved line (item 10, part 5, qty 10). -/
def dbDraftEx : DB :=
  { orders := [⟨1, 50, "S1", Status.draft⟩],
    order_items := [⟨10, 1, some 5, none, 10⟩],
    receipts := [], receipt_items := [], stock_moves := [], inventory := [],
    supplier_part_refs := [], pending_refs := [], nextId := 100 }

/-- The same store with the order in status ordered. -/
def dbOrderedEx : DB :=
  { dbDraftEx with orders := [⟨1, 50, "S1", Status.ordered⟩] }

/-- A receiving form entering quantity 4 for item 10, location "A1". -/
def formRecv4 : ReceiveForm :=
  ⟨fun i => if i = 10 then some 4 else none, fun _ => none, fun _ _ => "A1"⟩

/-- A receiving form entering quantity 6 for item 10, location "A1". -/
def formRecv6 : ReceiveForm :=
  ⟨fun i => if i = 10 then some 6 else none, fun _ => none, fun _ _ => "A1"⟩

/-- An ordered order with two lines: item 10 (qty 3) and item 11 (qty 2). -/
def dbTwoLinesEx : DB :=
  { orders := [⟨1, 50, "S1", Status.ordered⟩],
    order_items := [⟨10, 1, some 5, none, 3⟩, ⟨11, 1, some 6, none, 2⟩],
    receipts := [], receipt_items := [], stock_moves := [], inventory := [],
    supplier_part_refs := [], pending_refs := [], nextId := 100 }

/-- A form over-receiving item 10 (5 entered, 3 remaining) and validly
receiving 1 of item 11. -/
def formOverEx : ReceiveForm :=
  ⟨fun i => if i = 10 then some 5 else if i = 11 then some 1 else none,
   fun _ => none, fun _ _ => "A1"⟩

/-- A form entering quantity 0 for item 10 and 1 for item 11. -/
def formZeroEx : ReceiveForm :=
  ⟨fun i => if i = 10 then some 0 else if i = 11 then some 1 else none,
   fun _ => none, fun _ _ => "A1"⟩

/-- A form receiving both lines in full (3 of item 10, 2 of item 11). -/
def formFullEx : ReceiveForm :=
  ⟨fun i => if i = 10 then some 3 else if i = 11 then some 2 else none,
   fun _ => none, fun _ _ => "A1"⟩

/-- A cancelled order (qty 3 ordered) of which 1 unit has already been
receipted. -/
def dbCancelledEx : DB :=
  { orders := [⟨1, 50, "S1", Status.cancelled⟩],
    order_items := [⟨10, 1, some 5, none, 3⟩],
    receipts := [], receipt_items := [⟨90, 10, 1, Condition.neuf, some "A1"⟩],
    stock_moves := [], inventory := [],
    supplier_part_refs := [], pending_refs := [], nextId := 100 }

/-- An ordered order whose only line is unresolved (part_id null,
supplier_ref "X-789", qty 10). -/
def dbNullPartEx : DB :=
  { orders := [⟨1, 50, "S1", Status.ordered⟩],
    order_items := [⟨10, 1, none, some "X-789", 10⟩],
    receipts := [], receipt_items := [], stock_moves := [], inventory := [],
    supplier_part_refs := [], pending_refs := [], nextId := 100 }

/-- Two suppliers' orders with orphaned lines and one pending reference:
item 10 (order 1, supplier 50, part null, ref "X-789"), item 11 (order 2,
supplier 51, part null, same ref), item 12 (order 1, part already set). -/
def dbPendingEx : DB :=
  { orders := [⟨1, 50, "S1", Status.draft⟩, ⟨2, 51, "S1", Status.draft⟩],
    order_items := [⟨10, 1, none, some "X-789", 10⟩, ⟨11, 2, none, some "X-789", 5⟩,
                    ⟨12, 1, some 9, some "X-789", 2⟩],
    receipts := [], receipt_items := [], stock_moves := [], inventory := [],
    supplier_part_refs := [], pending_refs := [⟨7, 50, "X-789"⟩], nextId := 100 }

/-- The ordered store with an existing inventory row for (S1, part 5) in
condition occ at location "B7". -/
def dbKnownLocEx : DB :=
  { dbOrderedEx with inventory := [⟨"S1", some 5, Condition.occ, 2, some "B7"⟩] }

/-- A form whose location entry is "Z9" for every key. -/
def formLocZ9 : ReceiveForm :=
  ⟨fun i => if i = 10 then some 4 else none, fun _ => none, fun _ _ => "Z9"⟩

/-- A form supplying only whitespace as location. -/
def formNoLocEx : ReceiveForm :=
  ⟨fun i => if i = 10 then some 4 else none, fun _ => none, fun _ _ => "  "⟩

/-- A form supplying no location at all (empty string for every key). -/
def formEmptyLocEx : ReceiveForm :=
  ⟨fun i => if i = 10 then some 4 else none, fun _ => none, fun _ _ => ""⟩

/-- A write oracle under which the second write (index 1) fails. -/
def failSecond : Nat → Bool := fun n => n == 1

/-! ### Counterexamples -/

/-- Claim C1 counterexample: createReceiptWithItems never checks the order's
status.  On a draft order it succeeds and inserts a receipt, instead of
failing with OrderNotReceivable and performing no insert. -/
theorem receipt_on_draft_succeeds :
    (createReceiptWithItems dbDraftEx "" "S1" 1 formRecv4 noFail).err = none ∧
    (createReceiptWithItems dbDraftEx "" "S1" 1 formRecv4 noFail).db.receipts =
      dbDraftEx.receipts ++ [⟨100, 1, "S1"⟩] := by
  constructor <;> decide

/-- Claim C2 counterexample: in the older receiving path (src/src/App.tsx
lines 479-493) a line exceeding the remaining quantity is silently dropped
and the rest of the batch proceeds: the call succeeds and inserts the other
line, instead of failing the whole batch with OverReceipt. -/
theorem overreceipt_line_dropped_not_failed :
    (createReceiptWithItemsV1 dbTwoLinesEx "" "S1" 1 formOverEx noFail).err = none ∧
    (createReceiptWithItemsV1 dbTwoLinesEx "" "S1" 1 formOverEx noFail).db.receipt_items =
      [⟨100, 11, 1, Condition.neuf, some "A1"⟩] := by
  constructor <;> rfl

/-- Claim C5 counterexample: the receiving path at src/src/App.tsx lines
2313-2345 performs no status recompute: receiving the full remaining
quantity of every line succeeds yet leaves the order's status at ordered
instead of received. -/
theorem full_receipt_leaves_status_unchanged :
    (createReceiptWithItems dbTwoLinesEx "" "S1" 1 formFullEx noFail).err = none ∧
    statusOf (createReceiptWithItems dbTwoLinesEx "" "S1" 1 formFullEx noFail).db 1 =
      some Status.ordered := by
  constructor <;> decide

/-- Claim C6 counterexample: the writes are independent network calls.  When
the receipt insert succeeds and the receipt_items insert fails, the
operation reports an error but the receipt row persists: the state after
the failed call differs from the state before it. -/
theorem partial_write_persists :
    ((createReceiptWithItems dbOrderedEx "" "S1" 1 formRecv4 failSecond).err).isSome = true ∧
    (createReceiptWithItems dbOrderedEx "" "S1" 1 formRecv4 failSecond).db ≠ dbOrderedEx := by
  constructor
  · decide
  · decide

/-- Claim C8 counterexample: maybeMarkOrderPartial has no terminal-state
guard: run on a cancelled order with a partial receipt it moves the status
to partially_received, leaving the terminal state. -/
theorem recompute_escapes_cancelled :
    statusOf (maybeMarkOrderPartialRecv dbCancelledEx 1 ⟨noFail, 0⟩).1 1 =
      some Status.partially_received := by
  rfl

/-- Claim C9 counterexample: a line whose order item has part_id null is
received like any other: the call succeeds and creates a ReceiptItem for the
unresolved line instead of failing. -/
theorem unresolved_line_received :
    (createReceiptWithItems dbNullPartEx "" "S1" 1 formRecv4 noFail).err = none ∧
    (createReceiptWithItems dbNullPartEx "" "S1" 1 formRecv4 noFail).db.receipt_items =
      [⟨100, 10, 4, Condition.neuf, some "A1"⟩] := by
  constructor <;> decide

/-- Claim C4 counterexample: the older receiving path (src/src/App.tsx
lines 479-491; src/unnamed/part_001 lines 348-351) never raises
LocationRequired: a line with no known location and no supplied location
posts successfully, recording the receipt item with location null, instead
of failing with no effect. -/
theorem missing_location_not_required_in_v1 :
    (createReceiptWithItemsV1 dbOrderedEx "" "S1" 1 formEmptyLocEx noFail).err = none ∧
    (createReceiptWithItemsV1 dbOrderedEx "" "S1" 1 formEmptyLocEx noFail).db.receipt_items =
      [⟨100, 10, 4, Condition.neuf, none⟩] := by
  constructor <;> decide

/-- Claim C3 evaluation at the failing input: via the older receiving path,
receive 4 units of part 5 at site S1 (creating the inventory row at 4), then
receive the remaining 6: the PostgREST upsert succeeds and REPLACES
qty with 6, so the bucket holds 6 while the receipt items for the triple sum
to 10 — the additive-upsert invariant is broken by the success path (the
code's own comment calls the call an additive upsert, and only the
error-fallback path adds). -/
theorem inventory_upsert_replaces_qty :
    (createReceiptWithItemsV1
        (createReceiptWithItemsV1 dbOrderedEx "" "S1" 1 formRecv4 noFail).db
        "" "S1" 1 formRecv6 noFail).err = none ∧
    invQty (createReceiptWithItemsV1
        (createReceiptWithItemsV1 dbOrderedEx "" "S1" 1 formRecv4 noFail).db
        "" "S1" 1 formRecv6 noFail).db "S1" (some 5) Condition.neuf = 6 ∧
    receivedFor (createReceiptWithItemsV1
        (createReceiptWithItemsV1 dbOrderedEx "" "S1" 1 formRecv4 noFail).db
        "" "S1" 1 formRecv6 noFail).db 10 = 10 := by
  refine ⟨rfl, by decide, by decide⟩


theorem updateStatus_order_items (db : DB) (oid : Nat) (st : Status) :
    (updateStatus db oid st).order_items = db.order_items := rfl

theorem updateStatus_receipts (db : DB) (oid : Nat) (st : Status) :
    (updateStatus db oid st).receipts = db.receipts := rfl

theorem updateStatus_receipt_items (db : DB) (oid : Nat) (st : Status) :
    (updateStatus db oid st).receipt_items = db.receipt_items := rfl

theorem updateStatus_inventory (db : DB) (oid : Nat) (st : Status) :
    (updateStatus db oid st).inventory = db.inventory := rfl

theorem updateStatus_nextId (db : DB) (oid : Nat) (st : Status) :
    (updateStatus db oid st).nextId = db.nextId := rfl

theorem find?_updateStatus (db : DB) (oid aoid : Nat) (st : Status) :
    (updateStatus db oid st).orders.find? (fun o => o.id == aoid) =
      ((db.orders.find? (fun o => o.id == aoid)).map
        (fun o => if o.id == oid then { o with status := st } else o)) := by
  show (db.orders.map _).find? _ = _
  rw [List.find?_map]
  have hp : ((fun o : Order => o.id == aoid) ∘ fun o : Order =>
      if o.id == oid then { o with status := st } else o) = fun o : Order => o.id == aoid := by
    funext o
    by_cases h : o.id == oid <;> simp [Function.comp, h]
  rw [hp]

theorem buildLinesV2_ok_mem {db : DB} {site : String} {form : ReceiveForm} :
    ∀ {items : List OrderItem} {lines : List LineV2},
      buildLinesV2 db site form items = .ok lines →
      ∀ l ∈ lines, l.oi ∈ items ∧ form.toReceive l.oi.id = some l.qty ∧
        0 < l.qty ∧ l.qty ≤ remainingFor db l.oi ∧
        l.cond = (form.cond l.oi.id).getD Condition.neuf ∧
        l.loc = locChoiceV2 db site form l.oi
  | [], lines, h, l, hl => by
    simp only [buildLinesV2] at h
    cases h
    simp at hl
  | it :: rest, lines, h, l, hl => by
    simp only [buildLinesV2] at h
    split at h
    · have := buildLinesV2_ok_mem h l hl
      exact ⟨List.mem_cons_of_mem _ this.1, this.2⟩
    · rename_i q heq
      split at h
      · have := buildLinesV2_ok_mem h l hl
        exact ⟨List.mem_cons_of_mem _ this.1, this.2⟩
      · split at h
        · cases h
        · split at h
          · cases h
          · rename_i hq hle hloc
            cases hrec : buildLinesV2 db site form rest with
            | error e => rw [hrec] at h; cases h
            | ok ls =>
              rw [hrec] at h
              cases h
              rcases List.mem_cons.mp hl with hhd | htl
              · subst hhd
                refine ⟨List.mem_cons_self _ _, heq, ?_, ?_, rfl, rfl⟩
                · show (0 : Int) < q
                  omega
                · show q ≤ remainingFor db it
                  exact le_of_not_lt hle
              · have := buildLinesV2_ok_mem hrec l htl
                exact ⟨List.mem_cons_of_mem _ this.1, this.2⟩

theorem buildLinesV2_ok_oi_sublist {db : DB} {site : String} {form : ReceiveForm} :
    ∀ {items : List OrderItem} {lines : List LineV2},
      buildLinesV2 db site form items = .ok lines →
      (lines.map (fun l => l.oi)).Sublist items
  | [], lines, h => by
    simp only [buildLinesV2] at h
    cases h
    simp
  | it :: rest, lines, h => by
    simp only [buildLinesV2] at h
    split at h
    · exact (buildLinesV2_ok_oi_sublist h).cons it
    · split at h
      · exact (buildLinesV2_ok_oi_sublist h).cons it
      · split at h
        · cases h
        · split at h
          · cases h
          · cases hrec : buildLinesV2 db site form rest with
            | error e => rw [hrec] at h; cases h
            | ok ls =>
              rw [hrec] at h
              cases h
              exact (buildLinesV2_ok_oi_sublist hrec).cons₂ it

theorem buildLinesV2_complete {db : DB} {site : String} {form : ReceiveForm} :
    ∀ {items : List OrderItem} {lines : List LineV2},
      buildLinesV2 db site form items = .ok lines →
      ∀ it ∈ items, ∀ q, form.toReceive it.id = some q → 0 < q →
        q ≤ remainingFor db it → ∃ l ∈ lines, l.oi = it ∧ l.qty = q
  | [], lines, h, it, hit, q, hq, hpos, hle => by simp at hit
  | hd :: rest, lines, h, it, hit, q, hq, hpos, hle => by
    simp only [buildLinesV2] at h
    rcases List.mem_cons.mp hit with hhd | htl
    · subst hhd
      have h0 : ¬(q ≤ 0) := by omega
      have h1 : ¬(remainingFor db it < q) := not_lt.mpr hle
      simp only [hq, if_neg h0, if_neg h1] at h
      split at h
      · cases h
      · cases hrec : buildLinesV2 db site form rest with
        | error e => rw [hrec] at h; simp [Except.map] at h
        | ok ls =>
          rw [hrec] at h
          simp only [Except.map] at h
          cases h
          exact ⟨_, List.mem_cons_self _ _, rfl, rfl⟩
    · split at h
      · exact buildLinesV2_complete h it htl q hq hpos hle
      · split at h
        · exact buildLinesV2_complete h it htl q hq hpos hle
        · split at h
          · cases h
          · split at h
            · cases h
            · cases hrec : buildLinesV2 db site form rest with
              | error e => rw [hrec] at h; cases h
              | ok ls =>
                rw [hrec] at h
                cases h
                obtain ⟨l, hl, he⟩ := buildLinesV2_complete hrec it htl q hq hpos hle
                exact ⟨l, List.mem_cons_of_mem _ hl, he⟩


theorem createReceiptWithItems_ok_inv {db db' : DB} {ps rs : String} {oid : Nat}
    {form : ReceiveForm} {wf : Nat → Bool}
    (h : createReceiptWithItems db ps rs oid form wf = ⟨db', none⟩) :
    ∃ lines,
      buildLinesV2 db (chooseSite db ps rs oid) form
          (db.order_items.filter (fun it => it.order_id == oid)) = .ok lines ∧
      lines ≠ [] ∧
      db' = { db with
                nextId := db.nextId + 1,
                receipts := db.receipts ++ [⟨db.nextId, oid, chooseSite db ps rs oid⟩],
                receipt_items := db.receipt_items ++
                  lines.map (fun l => ⟨db.nextId, l.oi.id, l.qty, l.cond, l.loc⟩) } := by
  simp only [createReceiptWithItems] at h
  by_cases hs : chooseSite db ps rs oid = ""
  · rw [if_pos hs] at h
    exact absurd (congrArg OpOut.err h) (by simp)
  · rw [if_neg hs] at h
    cases hlines : buildLinesV2 db (chooseSite db ps rs oid) form
        (db.order_items.filter (fun it => it.order_id == oid)) with
    | error e =>
      simp only [hlines] at h
      exact absurd (congrArg OpOut.err h) (by simp)
    | ok lines =>
      simp only [hlines] at h
      by_cases hne : lines.isEmpty
      · rw [if_pos hne] at h
        exact absurd (congrArg OpOut.err h) (by simp)
      · rw [if_neg hne] at h
        by_cases h0 : wf 0 = true
        · rw [if_pos h0] at h
          exact absurd (congrArg OpOut.err h) (by simp)
        · rw [if_neg h0] at h
          by_cases h1 : wf 1 = true
          · rw [if_pos h1] at h
            exact absurd (congrArg OpOut.err h) (by simp)
          · rw [if_neg h1] at h
            refine ⟨lines, rfl, by simpa using hne, ?_⟩
            exact (congrArg OpOut.db h).symm

theorem createReceiptWithItems_err_inv {db db' : DB} {ps rs : String} {oid : Nat}
    {form : ReceiveForm} {wf : Nat → Bool} {e : OpError}
    (h : createReceiptWithItems db ps rs oid form wf = ⟨db', some e⟩)
    (hne : e ≠ .dbError) : db' = db := by
  simp only [createReceiptWithItems] at h
  by_cases hs : chooseSite db ps rs oid = ""
  · rw [if_pos hs] at h
    exact (congrArg OpOut.db h).symm
  · rw [if_neg hs] at h
    cases hlines : buildLinesV2 db (chooseSite db ps rs oid) form
        (db.order_items.filter (fun it => it.order_id == oid)) with
    | error e2 =>
      simp only [hlines] at h
      exact (congrArg OpOut.db h).symm
    | ok lines =>
      simp only [hlines] at h
      by_cases hemp : lines.isEmpty
      · rw [if_pos hemp] at h
        exact (congrArg OpOut.db h).symm
      · rw [if_neg hemp] at h
        by_cases h0 : wf 0 = true
        · rw [if_pos h0] at h
          exact (congrArg OpOut.db h).symm
        · rw [if_neg h0] at h
          by_cases h1 : wf 1 = true
          · rw [if_pos h1] at h
            have := congrArg OpOut.err h
            simp only at this
            cases this
            exact absurd rfl hne
          · rw [if_neg h1] at h
            exact absurd (congrArg OpOut.err h) (by simp)

theorem createReceiptWithItems_err_fields {db db' : DB} {ps rs : String} {oid : Nat}
    {form : ReceiveForm} {wf : Nat → Bool} {e : OpError}
    (h : createReceiptWithItems db ps rs oid form wf = ⟨db', some e⟩) :
    db'.receipt_items = db.receipt_items ∧ db'.order_items = db.order_items ∧
      db'.inventory = db.inventory ∧ db'.orders = db.orders := by
  simp only [createReceiptWithItems] at h
  by_cases hs : chooseSite db ps rs oid = ""
  · rw [if_pos hs] at h
    injection h with hdb herr
    subst hdb
    exact ⟨rfl, rfl, rfl, rfl⟩
  · rw [if_neg hs] at h
    cases hlines : buildLinesV2 db (chooseSite db ps rs oid) form
        (db.order_items.filter (fun it => it.order_id == oid)) with
    | error e2 =>
      simp only [hlines] at h
      injection h with hdb herr
      subst hdb
      exact ⟨rfl, rfl, rfl, rfl⟩
    | ok lines =>
      simp only [hlines] at h
      by_cases hemp : lines.isEmpty
      · rw [if_pos hemp] at h
        injection h with hdb herr
        subst hdb
        exact ⟨rfl, rfl, rfl, rfl⟩
      · rw [if_neg hemp] at h
        by_cases h0 : wf 0 = true
        · rw [if_pos h0] at h
          injection h with hdb herr
          subst hdb
          exact ⟨rfl, rfl, rfl, rfl⟩
        · rw [if_neg h0] at h
          by_cases h1 : wf 1 = true
          · rw [if_pos h1] at h
            injection h with hdb herr
            subst hdb
            exact ⟨rfl, rfl, rfl, rfl⟩
          · rw [if_neg h1] at h
            exact absurd (congrArg OpOut.err h) (by simp)


theorem sumReceivedIn_cons (r : ReceiptItem) (rest : List ReceiptItem) (i : Nat) :
    sumReceivedIn (r :: rest) i =
      (if r.order_item_id == i then r.qty_received else 0) + sumReceivedIn rest i := by
  by_cases h : r.order_item_id == i <;>
    simp [sumReceivedIn, List.filter_cons, h]

theorem sumReceivedIn_append (a b : List ReceiptItem) (i : Nat) :
    sumReceivedIn (a ++ b) i = sumReceivedIn a i + sumReceivedIn b i := by
  simp [sumReceivedIn, List.filter_append]

theorem sumReceivedIn_eq_zero {i : Nat} :
    ∀ {ris : List ReceiptItem}, (∀ r ∈ ris, r.order_item_id ≠ i) → sumReceivedIn ris i = 0
  | [], _ => rfl
  | r :: rest, h => by
    rw [sumReceivedIn_cons]
    have hr : (r.order_item_id == i) = false := by
      simpa using h r (List.mem_cons_self _ _)
    rw [hr]
    simpa using sumReceivedIn_eq_zero (fun r' hr' => h r' (List.mem_cons_of_mem _ hr'))

theorem sumReceivedIn_new_le (rid : Nat) (bound : Int) (hb : 0 ≤ bound) :
    ∀ (lines : List LineV2), (lines.map (fun l => l.oi.id)).Nodup →
      ∀ i, (∀ l ∈ lines, l.oi.id = i → l.qty ≤ bound) →
        sumReceivedIn (lines.map (fun l =>
          (⟨rid, l.oi.id, l.qty, l.cond, l.loc⟩ : ReceiptItem))) i ≤ bound
  | [], _, i, _ => by simpa [sumReceivedIn] using hb
  | l :: ls, hnd, i, hbd => by
    rw [List.map_cons] at hnd
    obtain ⟨hnotin, hnd'⟩ := List.nodup_cons.mp hnd
    rw [List.map_cons, sumReceivedIn_cons]
    by_cases hi : l.oi.id = i
    · have h0 : sumReceivedIn (ls.map (fun l' =>
          (⟨rid, l'.oi.id, l'.qty, l'.cond, l'.loc⟩ : ReceiptItem))) i = 0 := by
        apply sumReceivedIn_eq_zero
        intro r hr
        obtain ⟨l', hl', hrfl⟩ := List.mem_map.mp hr
        subst hrfl
        show l'.oi.id ≠ i
        intro hcontra
        rw [← hi] at hcontra
        have hmem : l.oi.id ∈ ls.map (fun l => l.oi.id) := by
          rw [← hcontra]
          exact List.mem_map_of_mem _ hl'
        exact hnotin hmem
      have h2 : l.qty ≤ bound := hbd l (List.mem_cons_self _ _) hi
      simp only [show (l.oi.id == i) = true by simpa using hi, if_true, h0]
      omega
    · have hrest := sumReceivedIn_new_le rid bound hb ls hnd' i
        (fun l' hl' hli => hbd l' (List.mem_cons_of_mem _ hl') hli)
      simp only [show (l.oi.id == i) = false by simpa using hi]
      simpa using hrest

theorem lines_ids_nodup {db : DB} {site : String} {form : ReceiveForm} {oid : Nat}
    {lines : List LineV2}
    (hl : buildLinesV2 db site form
        (db.order_items.filter (fun it => it.order_id == oid)) = .ok lines)
    (hnd : (db.order_items.map (fun it => it.id)).Nodup) :
    (lines.map (fun l => l.oi.id)).Nodup := by
  have hsub := buildLinesV2_ok_oi_sublist hl
  have hsub2 := hsub.map (fun it : OrderItem => it.id)
  have hsub3 := (List.filter_sublist (p := fun it : OrderItem => it.order_id == oid)
      db.order_items).map (fun it : OrderItem => it.id)
  have hnodup := hnd.sublist (hsub2.trans hsub3)
  simpa [List.map_map, Function.comp] using hnodup


/-- Claim C2 (amended): in the receiving path at src/src/App.tsx 2313-2345,
a line whose quantity exceeds the remaining quantity aborts the whole batch
before any write (state unchanged), while non-positive quantities are
silently skipped rather than failing (and the older path at App.tsx 479-493
silently drops over-receipt lines, see the counterexample); consequently,
per order item, the receipt-item total never exceeds the ordered quantity
after any call that succeeds. -/
theorem overreceipt_aborts_and_conservation
    (db : DB) (ps rs : String) (oid : Nat) (form : ReceiveForm) (wf : Nat → Bool)
    (hnd : (db.order_items.map (fun it => it.id)).Nodup)
    (hpre : ∀ it ∈ db.order_items, receivedFor db it.id ≤ it.qty) :
    (∀ i, (createReceiptWithItems db ps rs oid form wf).err = some (.overReceipt i) →
        (createReceiptWithItems db ps rs oid form wf).db = db) ∧
    ((createReceiptWithItems db ps rs oid form wf).err = none →
      ∀ it ∈ db.order_items,
        receivedFor (createReceiptWithItems db ps rs oid form wf).db it.id ≤ it.qty) := by
  constructor
  · intro i hi
    have hout : createReceiptWithItems db ps rs oid form wf =
        ⟨(createReceiptWithItems db ps rs oid form wf).db, some (.overReceipt i)⟩ := by
      rw [← hi]
    exact createReceiptWithItems_err_inv hout (by simp)
  · intro hok it hit
    have hout : createReceiptWithItems db ps rs oid form wf =
        ⟨(createReceiptWithItems db ps rs oid form wf).db, none⟩ := by
      rw [← hok]
    obtain ⟨lines, hlines, hne, hdb⟩ := createReceiptWithItems_ok_inv hout
    rw [hdb]
    show sumReceivedIn (db.receipt_items ++ lines.map
      (fun l => (⟨db.nextId, l.oi.id, l.qty, l.cond, l.loc⟩ : ReceiptItem))) it.id ≤ it.qty
    rw [sumReceivedIn_append]
    have hb : (0 : Int) ≤ remainingFor db it := le_max_right _ _
    have hbd : ∀ l ∈ lines, l.oi.id = it.id → l.qty ≤ remainingFor db it := by
      intro l hl hid
      obtain ⟨hmem, _, _, hle, _, _⟩ := buildLinesV2_ok_mem hlines l hl
      have hmem' : l.oi ∈ db.order_items := List.mem_of_mem_filter hmem
      have : l.oi = it := List.inj_on_of_nodup_map hnd hmem' hit hid
      rw [← this]
      exact hle
    have hnew := sumReceivedIn_new_le db.nextId (remainingFor db it) hb lines
      (lines_ids_nodup hlines hnd) it.id hbd
    have h1 : sumReceivedIn db.receipt_items it.id = receivedFor db it.id := rfl
    have h2 := hpre it hit
    have h3 : remainingFor db it = it.qty - receivedFor db it.id :=
      max_eq_left (by omega)
    omega

/-- Claim C9 (amended): neither receiving path checks part resolution.  A
line whose order item has part_id null is validated and received like any
other: when the call succeeds, a ReceiptItem is appended for the unresolved
line (keyed by order_item_id; the older path would moreover write
stock_moves and inventory keyed on the null part). -/
theorem null_part_line_creates_receipt_item
    (db : DB) (ps rs : String) (oid : Nat) (form : ReceiveForm) (wf : Nat → Bool)
    (it : OrderItem) (hit : it ∈ db.order_items) (hoid : it.order_id = oid)
    (_hnull : it.part_id = none) (q : Int)
    (hq : form.toReceive it.id = some q) (hpos : 0 < q) (hle : q ≤ remainingFor db it)
    (hok : (createReceiptWithItems db ps rs oid form wf).err = none) :
    ∃ r ∈ (createReceiptWithItems db ps rs oid form wf).db.receipt_items.drop
        db.receipt_items.length, r.order_item_id = it.id ∧ r.qty_received = q := by
  have hout : createReceiptWithItems db ps rs oid form wf =
      ⟨(createReceiptWithItems db ps rs oid form wf).db, none⟩ := by
    rw [← hok]
  obtain ⟨lines, hlines, hne, hdb⟩ := createReceiptWithItems_ok_inv hout
  have hmem : it ∈ db.order_items.filter (fun x => x.order_id == oid) :=
    List.mem_filter.mpr ⟨hit, by simp [hoid]⟩
  obtain ⟨l, hl, hoi, hqty⟩ := buildLinesV2_complete hlines it hmem q hq hpos hle
  rw [hdb]
  show ∃ r ∈ (db.receipt_items ++ lines.map
      (fun l => (⟨db.nextId, l.oi.id, l.qty, l.cond, l.loc⟩ : ReceiptItem))).drop
        db.receipt_items.length, r.order_item_id = it.id ∧ r.qty_received = q
  rw [List.drop_left]
  refine ⟨⟨db.nextId, l.oi.id, l.qty, l.cond, l.loc⟩, List.mem_map_of_mem _ hl, ?_, ?_⟩
  · show l.oi.id = it.id
    rw [hoi]
  · exact hqty

/-- Claim C4 (amended): sticky-location policy of the receiving path at
src/src/App.tsx 2313-2345.  (a) When an inventory row for (site, part)
already records a location, every receipt item inserted for that part
carries that known location, whatever the caller typed; (b) whenever the
call fails with LocationRequired the state is exactly the state before the
call; (c) the failure actually triggers: a line with no known location and
no supplied location (empty after trimming) makes the call fail with
LocationRequired naming that line.  The older receiving path (App.tsx
479-491 / part_001 348-351) applies the same sticky priority when choosing
the line's location but has no LocationRequired check at all: such a line
posts with location null there (see the counterexample). -/
theorem sticky_location_policy
    (db : DB) (ps rs : String) (oid : Nat) (form : ReceiveForm) (wf : Nat → Bool)
    (hnd : (db.order_items.map (fun x => x.id)).Nodup) :
    (∀ r ∈ (createReceiptWithItems db ps rs oid form wf).db.receipt_items.drop
        db.receipt_items.length,
      ∀ it ∈ db.order_items, it.id = r.order_item_id →
      ∀ l0, knownLocationBySitePart db.inventory (chooseSite db ps rs oid) it.part_id
          = some l0 →
        r.location = some l0) ∧
    (∀ i, (createReceiptWithItems db ps rs oid form wf).err = some (.locationRequired i) →
      (createReceiptWithItems db ps rs oid form wf).db = db) ∧
    (∀ it rest q,
      db.order_items.filter (fun x => x.order_id == oid) = it :: rest →
      form.toReceive it.id = some q → 0 < q → q ≤ remainingFor db it →
      knownLocationBySitePart db.inventory (chooseSite db ps rs oid) it.part_id = none →
      strTrim (form.locByPart (chooseSite db ps rs oid) it.part_id) = "" →
      chooseSite db ps rs oid ≠ "" →
      (createReceiptWithItems db ps rs oid form wf).err = some (.locationRequired it.id) ∧
      (createReceiptWithItems db ps rs oid form wf).db = db) := by
  refine ⟨?_, ?_, ?_⟩
  · intro r hr it hit hid l0 hknown
    cases herr : (createReceiptWithItems db ps rs oid form wf).err with
    | some e =>
      have hout : createReceiptWithItems db ps rs oid form wf =
          ⟨(createReceiptWithItems db ps rs oid form wf).db, some e⟩ := by
        rw [← herr]
      have hfields := createReceiptWithItems_err_fields hout
      rw [hfields.1, List.drop_length] at hr
      cases hr
    | none =>
      have hout : createReceiptWithItems db ps rs oid form wf =
          ⟨(createReceiptWithItems db ps rs oid form wf).db, none⟩ := by
        rw [← herr]
      obtain ⟨lines, hlines, hne, hdb⟩ := createReceiptWithItems_ok_inv hout
      rw [hdb] at hr
      have hr' : r ∈ (db.receipt_items ++ lines.map
          (fun l => (⟨db.nextId, l.oi.id, l.qty, l.cond, l.loc⟩ : ReceiptItem))).drop
            db.receipt_items.length := hr
      rw [List.drop_left] at hr'
      obtain ⟨l, hl, hrfl⟩ := List.mem_map.mp hr'
      subst hrfl
      obtain ⟨hmem, _, _, _, _, hloc⟩ := buildLinesV2_ok_mem hlines l hl
      have hmem' : l.oi ∈ db.order_items := List.mem_of_mem_filter hmem
      have heq : it = l.oi := List.inj_on_of_nodup_map hnd hit hmem' hid
      show l.loc = some l0
      rw [hloc]
      rw [← heq] at *
      simp only [locChoiceV2]
      rw [hknown]
  · intro i hi
    have hout : createReceiptWithItems db ps rs oid form wf =
        ⟨(createReceiptWithItems db ps rs oid form wf).db, some (.locationRequired i)⟩ := by
      rw [← hi]
    exact createReceiptWithItems_err_inv hout (by simp)
  · intro it rest q hfilter hq hpos hle hknown htrim hsite
    have hloc : locChoiceV2 db (chooseSite db ps rs oid) form it = none := by
      simp only [locChoiceV2, hknown, htrim]
      rfl
    have hbl : buildLinesV2 db (chooseSite db ps rs oid) form (it :: rest) =
        .error (.locationRequired it.id) := by
      simp only [buildLinesV2, hq]
      rw [if_neg (by omega : ¬(q ≤ 0)), if_neg (not_lt.mpr hle), if_pos ⟨hknown, hloc⟩]
    constructor
    · simp only [createReceiptWithItems]
      rw [if_neg hsite, hfilter]
      simp only [hbl]
    · simp only [createReceiptWithItems]
      rw [if_neg hsite, hfilter]
      simp only [hbl]

theorem createReceiptWithItems_noFail_err_inv {db db' : DB} {ps rs : String}
    {oid : Nat} {form : ReceiveForm} {e : OpError}
    (h : createReceiptWithItems db ps rs oid form noFail = ⟨db', some e⟩) : db' = db := by
  simp only [createReceiptWithItems] at h
  by_cases hs : chooseSite db ps rs oid = ""
  · rw [if_pos hs] at h
    exact (congrArg OpOut.db h).symm
  · rw [if_neg hs] at h
    cases hlines : buildLinesV2 db (chooseSite db ps rs oid) form
        (db.order_items.filter (fun it => it.order_id == oid)) with
    | error e2 =>
      simp only [hlines] at h
      exact (congrArg OpOut.db h).symm
    | ok lines =>
      simp only [hlines] at h
      by_cases hemp : lines.isEmpty
      · rw [if_pos hemp] at h
        exact (congrArg OpOut.db h).symm
      · rw [if_neg hemp] at h
        rw [if_neg (by simp [noFail] : ¬(noFail 0 = true))] at h
        rw [if_neg (by simp [noFail] : ¬(noFail 1 = true))] at h
        exact absurd (congrArg OpOut.err h) (by simp)

/-- Claim C6 (amended): when no database write fails, every failure of
createReceiptWithItems is a validation failure detected before any write, so
the state after the failed call is exactly the state before it.  (When a
write does fail mid-operation the earlier writes persist — see the
counterexample.) -/
theorem validation_failure_leaves_state
    (db : DB) (ps rs : String) (oid : Nat) (form : ReceiveForm)
    (hfail : ((createReceiptWithItems db ps rs oid form noFail).err).isSome = true) :
    (createReceiptWithItems db ps rs oid form noFail).db = db := by
  cases herr : (createReceiptWithItems db ps rs oid form noFail).err with
  | none => rw [herr] at hfail; cases hfail
  | some e =>
    have hout : createReceiptWithItems db ps rs oid form noFail =
        ⟨(createReceiptWithItems db ps rs oid form noFail).db, some e⟩ := by
      rw [← herr]
    exact createReceiptWithItems_noFail_err_inv hout


theorem chooseSite_updateStatus (db : DB) (oid2 : Nat) (st : Status)
    (ps rs : String) (oid : Nat) :
    chooseSite (updateStatus db oid2 st) ps rs oid = chooseSite db ps rs oid := by
  unfold chooseSite
  rw [find?_updateStatus]
  cases h : db.orders.find? (fun o => o.id == oid) with
  | none => rfl
  | some o =>
    have hsite : (if o.id = oid2 then ({ o with status := st } : Order) else o).site
        = o.site := by
      by_cases ho : o.id = oid2 <;> simp [ho]
    simp [hsite]

theorem remainingFor_updateStatus (db : DB) (oid2 : Nat) (st : Status) (it : OrderItem) :
    remainingFor (updateStatus db oid2 st) it = remainingFor db it := rfl

theorem knownLocationBySitePart_updateStatus (db : DB) (oid2 : Nat) (st : Status)
    (site : String) (pid : Option Nat) :
    knownLocationBySitePart (updateStatus db oid2 st).inventory site pid =
      knownLocationBySitePart db.inventory site pid := rfl

theorem locChoiceV2_updateStatus (db : DB) (oid2 : Nat) (st : Status)
    (site : String) (form : ReceiveForm) (it : OrderItem) :
    locChoiceV2 (updateStatus db oid2 st) site form it = locChoiceV2 db site form it := rfl

theorem buildLinesV2_updateStatus (db : DB) (oid2 : Nat) (st : Status)
    (site : String) (form : ReceiveForm) :
    ∀ items, buildLinesV2 (updateStatus db oid2 st) site form items =
      buildLinesV2 db site form items
  | [] => rfl
  | it :: rest => by
    simp only [buildLinesV2, remainingFor_updateStatus, knownLocationBySitePart_updateStatus,
      locChoiceV2_updateStatus, buildLinesV2_updateStatus db oid2 st site form rest]

/-- Claim C1 (amended): createReceiptWithItems never consults the order's
status.  Changing any order's status (via setOrderStatus, the only
status-writing operation of this component) changes neither the reported
error nor the effect of the call, beyond the status change itself: in
particular receipts post identically against draft, ordered, received or
cancelled orders, and no OrderNotReceivable check exists. -/
theorem receipt_status_independent (db : DB) (oid2 : Nat) (st : Status)
    (ps rs : String) (oid : Nat) (form : ReceiveForm) (wf : Nat → Bool) :
    (createReceiptWithItems (setOrderStatus db oid2 st) ps rs oid form wf).err =
      (createReceiptWithItems db ps rs oid form wf).err ∧
    (createReceiptWithItems (setOrderStatus db oid2 st) ps rs oid form wf).db =
      setOrderStatus (createReceiptWithItems db ps rs oid form wf).db oid2 st := by
  simp only [createReceiptWithItems, setOrderStatus]
  rw [chooseSite_updateStatus, updateStatus_order_items, buildLinesV2_updateStatus]
  by_cases hs : chooseSite db ps rs oid = ""
  · simp only [if_pos hs]
    exact ⟨by trivial, by trivial⟩
  · simp only [if_neg hs]
    cases hlines : buildLinesV2 db (chooseSite db ps rs oid) form
        (db.order_items.filter (fun it => it.order_id == oid)) with
    | error e =>
      simp only [hlines]
      exact ⟨by trivial, by trivial⟩
    | ok lines =>
      simp only [hlines]
      by_cases hemp : lines.isEmpty
      · simp only [if_pos hemp]
        exact ⟨by trivial, by trivial⟩
      · simp only [if_neg hemp]
        by_cases h0 : wf 0 = true
        · simp only [if_pos h0]
          exact ⟨by trivial, by trivial⟩
        · simp only [if_neg h0]
          by_cases h1 : wf 1 = true
          · simp only [if_pos h1]
            exact ⟨by trivial, by trivial⟩
          · simp only [if_neg h1]
            exact ⟨by trivial, by trivial⟩


theorem statusOf_updateStatus (db : DB) (oid : Nat) (st : Status) {o : Order}
    (ho : db.orders.find? (fun x => x.id == oid) = some o) :
    statusOf (updateStatus db oid st) oid = some st := by
  unfold statusOf
  rw [find?_updateStatus, ho]
  have hb := List.find?_some ho
  simp only [beq_iff_eq] at hb
  simp [hb]

theorem qtyOrderedOf_updateStatus (db : DB) (oid2 : Nat) (st : Status) (oid : Nat) :
    qtyOrderedOf (updateStatus db oid2 st) oid = qtyOrderedOf db oid := rfl

theorem qtyReceivedOf_updateStatus (db : DB) (oid2 : Nat) (st : Status) (oid : Nat) :
    qtyReceivedOf (updateStatus db oid2 st) oid = qtyReceivedOf db oid := rfl

theorem maybeMarkOrderPartialRecv_fst (db : DB) (oid : Nat) (c : WCtx)
    (hw : c.wfail = noFail) {o : Order}
    (ho : db.orders.find? (fun x => x.id == oid) = some o) :
    (maybeMarkOrderPartialRecv db oid c).1 =
      if 0 < qtyOrderedOf db oid ∧ 0 < qtyReceivedOf db oid ∧
          qtyReceivedOf db oid < qtyOrderedOf db oid ∧
          o.status ≠ Status.partially_received then
        updateStatus db oid Status.partially_received
      else db := by
  unfold maybeMarkOrderPartialRecv
  simp only [ho]
  by_cases hP : 0 < qtyOrderedOf db oid ∧ 0 < qtyReceivedOf db oid ∧
      qtyReceivedOf db oid < qtyOrderedOf db oid ∧ o.status ≠ Status.partially_received
  · simp [if_pos hP, writeOk, hw, noFail]
  · simp only [if_neg hP]

theorem maybeMarkOrderPartialRecv_wfail (db : DB) (oid : Nat) (c : WCtx) :
    (maybeMarkOrderPartialRecv db oid c).2.wfail = c.wfail := by
  unfold maybeMarkOrderPartialRecv
  cases h : db.orders.find? (fun o => o.id == oid) with
  | none => rfl
  | some o =>
    by_cases hP : 0 < qtyOrderedOf db oid ∧ 0 < qtyReceivedOf db oid ∧
        qtyReceivedOf db oid < qtyOrderedOf db oid ∧ o.status ≠ Status.partially_received
    · by_cases hb : c.wfail c.idx = true <;> simp [if_pos hP, writeOk, hb]
    · simp [if_neg hP]

theorem maybeMarkOrderReceived_fst (db : DB) (oid : Nat) (c : WCtx)
    (hw : c.wfail = noFail) {o : Order}
    (ho : db.orders.find? (fun x => x.id == oid) = some o) :
    (maybeMarkOrderReceived db oid c).1 =
      if 0 < qtyOrderedOf db oid ∧ qtyOrderedOf db oid ≤ qtyReceivedOf db oid ∧
          o.status ≠ Status.received then
        updateStatus db oid Status.received
      else db := by
  unfold maybeMarkOrderReceived
  simp only [ho]
  by_cases hP : 0 < qtyOrderedOf db oid ∧ qtyOrderedOf db oid ≤ qtyReceivedOf db oid ∧
      o.status ≠ Status.received
  · simp [if_pos hP, writeOk, hw, noFail]
  · simp only [if_neg hP]

/-- Claim C5 (amended): the status recompute performed by the older receiving
path — maybeMarkOrderPartial followed by maybeMarkOrderReceived — sets the
status from the order's aggregate ordered vs received totals: received when
0 < ordered <= received, partially_received when 0 < received < ordered, and
leaves it unchanged otherwise; these two statuses are produced only by this
recompute (setOrderStatus accepts only draft and ordered).  The receiving
path at src/src/App.tsx 2313-2345, however, never invokes any recompute (see
the counterexample). -/
theorem recompute_status_characterization (db : DB) (oid : Nat) (n : Nat) (o : Order)
    (ho : db.orders.find? (fun x => x.id == oid) = some o) :
    statusOf (maybeMarkOrderReceived (maybeMarkOrderPartialRecv db oid ⟨noFail, n⟩).1 oid
        (maybeMarkOrderPartialRecv db oid ⟨noFail, n⟩).2).1 oid =
      some (if 0 < qtyOrderedOf db oid ∧ qtyOrderedOf db oid ≤ qtyReceivedOf db oid
            then Status.received
            else if 0 < qtyOrderedOf db oid ∧ 0 < qtyReceivedOf db oid ∧
                qtyReceivedOf db oid < qtyOrderedOf db oid
            then Status.partially_received
            else o.status) := by
  have hw2 : (maybeMarkOrderPartialRecv db oid ⟨noFail, n⟩).2.wfail = noFail :=
    maybeMarkOrderPartialRecv_wfail db oid ⟨noFail, n⟩
  rw [maybeMarkOrderPartialRecv_fst db oid ⟨noFail, n⟩ rfl ho]
  by_cases hP : 0 < qtyOrderedOf db oid ∧ 0 < qtyReceivedOf db oid ∧
      qtyReceivedOf db oid < qtyOrderedOf db oid ∧ o.status ≠ Status.partially_received
  · simp only [if_pos hP]
    have hb := List.find?_some ho
    simp only [beq_iff_eq] at hb
    have ho' : (updateStatus db oid Status.partially_received).orders.find?
        (fun x => x.id == oid) = some { o with status := Status.partially_received } := by
      rw [find?_updateStatus, ho]
      simp [hb]
    rw [maybeMarkOrderReceived_fst _ oid _ hw2 ho']
    rw [qtyOrderedOf_updateStatus, qtyReceivedOf_updateStatus]
    have hnotrec : ¬(0 < qtyOrderedOf db oid ∧
        qtyOrderedOf db oid ≤ qtyReceivedOf db oid ∧
        ({ o with status := Status.partially_received } : Order).status ≠ Status.received) := by
      intro hcon
      obtain ⟨h1, h2, h3, h4⟩ := hP
      omega
    rw [if_neg hnotrec, statusOf_updateStatus db oid _ ho]
    have hA : ¬(0 < qtyOrderedOf db oid ∧ qtyOrderedOf db oid ≤ qtyReceivedOf db oid) := by
      intro hcon
      obtain ⟨h1, h2, h3, h4⟩ := hP
      omega
    rw [if_neg hA, if_pos ⟨hP.1, hP.2.1, hP.2.2.1⟩]
  · simp only [if_neg hP]
    rw [maybeMarkOrderReceived_fst _ oid _ hw2 ho]
    by_cases hQ : 0 < qtyOrderedOf db oid ∧ qtyOrderedOf db oid ≤ qtyReceivedOf db oid ∧
        o.status ≠ Status.received
    · rw [if_pos hQ, statusOf_updateStatus db oid _ ho, if_pos ⟨hQ.1, hQ.2.1⟩]
    · rw [if_neg hQ]
      have hS : statusOf db oid = some o.status := by
        unfold statusOf
        rw [ho]
        rfl
      rw [hS]
      by_cases hA : 0 < qtyOrderedOf db oid ∧ qtyOrderedOf db oid ≤ qtyReceivedOf db oid
      · have hrec : o.status = Status.received := by
          by_contra hne
          exact hQ ⟨hA.1, hA.2, hne⟩
        rw [if_pos hA, hrec]
      · rw [if_neg hA]
        by_cases hB : 0 < qtyOrderedOf db oid ∧ 0 < qtyReceivedOf db oid ∧
            qtyReceivedOf db oid < qtyOrderedOf db oid
        · have hpart : o.status = Status.partially_received := by
            by_contra hne
            exact hP ⟨hB.1, hB.2.1, hB.2.2, hne⟩
          rw [if_pos hB, hpart]
        · rw [if_neg hB]

/-- Claim C8 (amended): no operation guards terminal states.  setOrderStatus
overwrites any current status (including received and cancelled) with the
caller's draft or ordered, and the status recompute moves even a cancelled
order to partially_received as soon as 0 < received < ordered — reachable
because receipt posting never checks the status either. -/
theorem terminal_states_not_guarded (db : DB) (oid : Nat) (next : Status) (o : Order)
    (ho : db.orders.find? (fun x => x.id == oid) = some o)
    (_hnext : next = Status.draft ∨ next = Status.ordered)
    (hcanc : o.status = Status.cancelled)
    (hq : 0 < qtyOrderedOf db oid ∧ 0 < qtyReceivedOf db oid ∧
        qtyReceivedOf db oid < qtyOrderedOf db oid) :
    statusOf (setOrderStatus db oid next) oid = some next ∧
    statusOf (maybeMarkOrderPartialRecv db oid ⟨noFail, 0⟩).1 oid =
      some Status.partially_received := by
  constructor
  · exact statusOf_updateStatus db oid next ho
  · rw [maybeMarkOrderPartialRecv_fst db oid ⟨noFail, 0⟩ rfl ho,
      if_pos ⟨hq.1, hq.2.1, hq.2.2, by rw [hcanc]; simp⟩]
    exact statusOf_updateStatus db oid _ ho


theorem relinkItems_nil (items : List OrderItem) (ref : String) (pid : Nat) :
    relinkItems items [] ref pid = items := by
  have h : ∀ it : OrderItem, relinkFilter [] ref it = false := by
    intro it
    simp [relinkFilter]
  unfold relinkItems
  simp [h]

theorem relinkFilter_updated_false (ordIds : List Nat) (ref : String) (pid : Nat)
    (it : OrderItem) :
    relinkFilter ordIds ref { it with part_id := some pid } = false := by
  simp [relinkFilter]

theorem relinkItems_idem (ordIds : List Nat) (ref : String) (pid : Nat)
    (items : List OrderItem) :
    relinkItems (relinkItems items ordIds ref pid) ordIds ref pid =
      relinkItems items ordIds ref pid := by
  unfold relinkItems
  rw [List.map_map]
  apply List.map_congr_left
  intro it _
  by_cases h : relinkFilter ordIds ref it = true
  · simp [Function.comp, h, relinkFilter_updated_false]
  · simp [Function.comp, h]

/-- Claim C7: approvePendingRef inserts the SupplierPartRef, deletes exactly
the approved PendingRef, and sets part_id on exactly the order items matched
by the re-link filter (part_id null, same supplier_ref, order of the
supplier); the re-link is idempotent: applying the same filtered update a
second time changes nothing, because already-linked items fail the
part_id-null predicate. -/
theorem approve_relinks_exactly_once (db : DB) (row : PendingRef) (pid : Nat)
    (url : Option String) :
    (approvePendingRef db row (some pid) url noFail).err = none ∧
    (approvePendingRef db row (some pid) url noFail).db.supplier_part_refs =
      db.supplier_part_refs ++ [⟨pid, row.supplier_id, row.supplier_ref, url⟩] ∧
    (approvePendingRef db row (some pid) url noFail).db.pending_refs =
      db.pending_refs.filter (fun p => p.id != row.id) ∧
    (approvePendingRef db row (some pid) url noFail).db.order_items =
      relinkItems db.order_items
        ((db.orders.filter (fun o => o.supplier_id == row.supplier_id)).map (fun o => o.id))
        row.supplier_ref pid ∧
    relinkItems (relinkItems db.order_items
        ((db.orders.filter (fun o => o.supplier_id == row.supplier_id)).map (fun o => o.id))
        row.supplier_ref pid)
      ((db.orders.filter (fun o => o.supplier_id == row.supplier_id)).map (fun o => o.id))
      row.supplier_ref pid =
    relinkItems db.order_items
      ((db.orders.filter (fun o => o.supplier_id == row.supplier_id)).map (fun o => o.id))
      row.supplier_ref pid := by
  have heval : approvePendingRef db row (some pid) url noFail =
      if ((db.orders.filter (fun o => o.supplier_id == row.supplier_id)).map
          (fun o => o.id)).isEmpty then
        ⟨{ db with
            supplier_part_refs := db.supplier_part_refs ++
              [⟨pid, row.supplier_id, row.supplier_ref, url⟩],
            pending_refs := db.pending_refs.filter (fun p => p.id != row.id) }, none⟩
      else
        ⟨{ db with
            supplier_part_refs := db.supplier_part_refs ++
              [⟨pid, row.supplier_id, row.supplier_ref, url⟩],
            pending_refs := db.pending_refs.filter (fun p => p.id != row.id),
            order_items := relinkItems db.order_items
              ((db.orders.filter (fun o => o.supplier_id == row.supplier_id)).map
                (fun o => o.id))
              row.supplier_ref pid }, none⟩ := rfl
  rw [heval]
  by_cases hemp : ((db.orders.filter (fun o => o.supplier_id == row.supplier_id)).map
      (fun o => o.id)).isEmpty
  · rw [if_pos hemp]
    have hnil : ((db.orders.filter (fun o => o.supplier_id == row.supplier_id)).map
        (fun o => o.id)) = [] := List.isEmpty_iff.mp hemp
    refine ⟨rfl, rfl, rfl, ?_, relinkItems_idem _ _ _ _⟩
    rw [hnil, relinkItems_nil]
  · rw [if_neg hemp]
    exact ⟨rfl, rfl, rfl, rfl, relinkItems_idem _ _ _ _⟩


theorem upsertInventory_receipts (db : DB) (site : String) (pid : Option Nat)
    (cond : Condition) (loc : Option String) (q : Int) (c : WCtx) :
    (upsertInventory db site pid cond loc q c).1.receipts = db.receipts := by
  unfold upsertInventory
  by_cases hok : (!(c.wfail c.idx)) = true
  · simp only [writeOk, if_pos hok]
    split <;> rfl
  · simp only [writeOk, if_neg hok]
    split
    · split <;> rfl
    · split <;> rfl

theorem upsertInventory_receipt_items (db : DB) (site : String) (pid : Option Nat)
    (cond : Condition) (loc : Option String) (q : Int) (c : WCtx) :
    (upsertInventory db site pid cond loc q c).1.receipt_items = db.receipt_items := by
  unfold upsertInventory
  by_cases hok : (!(c.wfail c.idx)) = true
  · simp only [writeOk, if_pos hok]
    split <;> rfl
  · simp only [writeOk, if_neg hok]
    split
    · split <;> rfl
    · split <;> rfl

theorem upsertInventory_site (db : DB) (site : String) (pid : Option Nat)
    (cond : Condition) (loc : Option String) (q : Int) (c : WCtx) :
    ∀ r ∈ (upsertInventory db site pid cond loc q c).1.inventory,
      r ∈ db.inventory ∨ r.site = site := by
  intro r hr
  unfold upsertInventory at hr
  by_cases hok : (!(c.wfail c.idx)) = true
  · simp only [writeOk, if_pos hok] at hr
    split at hr
    · obtain ⟨r0, hr0, hrfl⟩ := List.mem_map.mp hr
      by_cases hk : (r0.site == site && r0.part_id == pid && r0.condition == cond) = true
      · right
        rw [← hrfl]
        simp only [if_pos hk]
        simp only [Bool.and_eq_true] at hk
        simpa using hk.1.1
      · left
        rw [← hrfl]
        simp only [if_neg hk]
        exact hr0
    · rcases List.mem_append.mp hr with hold | hnew
      · exact Or.inl hold
      · right
        simp only [List.mem_singleton] at hnew
        rw [hnew]
  · simp only [writeOk, if_neg hok] at hr
    split at hr
    · split at hr
      · obtain ⟨r0, hr0, hrfl⟩ := List.mem_map.mp hr
        by_cases hk : (r0.site == site && r0.part_id == pid && r0.condition == cond) = true
        · right
          rw [← hrfl]
          simp only [if_pos hk]
          simp only [Bool.and_eq_true] at hk
          simpa using hk.1.1
        · left
          rw [← hrfl]
          simp only [if_neg hk]
          exact hr0
      · exact Or.inl hr
    · split at hr
      · rcases List.mem_append.mp hr with hold | hnew
        · exact Or.inl hold
        · right
          simp only [List.mem_singleton] at hnew
          rw [hnew]
      · exact Or.inl hr

theorem upsertInventory_receipts_out {db db' : DB} {site : String} {pid : Option Nat}
    {cond : Condition} {loc : Option String} {q : Int} {c c' : WCtx} {err : Option OpError}
    (h : upsertInventory db site pid cond loc q c = (db', c', err)) :
    db'.receipts = db.receipts := by
  have hx := upsertInventory_receipts db site pid cond loc q c
  rw [h] at hx
  exact hx

theorem upsertInventory_site_out {db db' : DB} {site : String} {pid : Option Nat}
    {cond : Condition} {loc : Option String} {q : Int} {c c' : WCtx} {err : Option OpError}
    (h : upsertInventory db site pid cond loc q c = (db', c', err)) :
    ∀ r ∈ db'.inventory, r ∈ db.inventory ∨ r.site = site := by
  have hx := upsertInventory_site db site pid cond loc q c
  rw [h] at hx
  exact hx

theorem runEntriesV1_receipts (site : String) (orderId rid : Nat) :
    ∀ (entries : List EntryV1) (db : DB) (c : WCtx),
      (runEntriesV1 site orderId rid entries db c).1.receipts = db.receipts
  | [], db, c => rfl
  | e :: rest, db, c => by
    unfold runEntriesV1
    split
    split
    · rfl
    · split
      split
      · rfl
      · dsimp only
        split
        · rename_i heq
          have hx := upsertInventory_receipts_out heq
          exact hx
        · rename_i db3 c3 heq
          have hx := upsertInventory_receipts_out heq
          have hy := runEntriesV1_receipts site orderId rid rest db3 c3
          exact hy.trans hx

theorem runEntriesV1_inventory_site (site : String) (orderId rid : Nat) :
    ∀ (entries : List EntryV1) (db : DB) (c : WCtx),
      ∀ r ∈ (runEntriesV1 site orderId rid entries db c).1.inventory,
        r ∈ db.inventory ∨ r.site = site
  | [], db, c => fun r hr => Or.inl hr
  | e :: rest, db, c => by
    unfold runEntriesV1
    split
    split
    · exact fun r hr => Or.inl hr
    · split
      split
      · exact fun r hr => Or.inl hr
      · dsimp only
        split
        · rename_i heq
          intro r hr
          have hx := upsertInventory_site_out heq r hr
          exact hx
        · rename_i db3 c3 heq
          intro r hr
          rcases runEntriesV1_inventory_site site orderId rid rest db3 c3 r hr with h1 | h2
          · have hx := upsertInventory_site_out heq r h1
            exact hx
          · exact Or.inr h2


theorem maybeMarkOrderPartialRecv_fields (db : DB) (oid : Nat) (c : WCtx) :
    (maybeMarkOrderPartialRecv db oid c).1.receipts = db.receipts ∧
    (maybeMarkOrderPartialRecv db oid c).1.inventory = db.inventory := by
  unfold maybeMarkOrderPartialRecv
  cases h : db.orders.find? (fun o => o.id == oid) with
  | none => exact ⟨rfl, rfl⟩
  | some o =>
    by_cases hP : 0 < qtyOrderedOf db oid ∧ 0 < qtyReceivedOf db oid ∧
        qtyReceivedOf db oid < qtyOrderedOf db oid ∧ o.status ≠ Status.partially_received
    · by_cases hb : c.wfail c.idx = true <;>
        simp [if_pos hP, writeOk, hb, updateStatus]
    · simp [if_neg hP]

theorem maybeMarkOrderReceived_fields (db : DB) (oid : Nat) (c : WCtx) :
    (maybeMarkOrderReceived db oid c).1.receipts = db.receipts ∧
    (maybeMarkOrderReceived db oid c).1.inventory = db.inventory := by
  unfold maybeMarkOrderReceived
  cases h : db.orders.find? (fun o => o.id == oid) with
  | none => exact ⟨rfl, rfl⟩
  | some o =>
    by_cases hP : 0 < qtyOrderedOf db oid ∧ qtyOrderedOf db oid ≤ qtyReceivedOf db oid ∧
        o.status ≠ Status.received
    · by_cases hb : c.wfail c.idx = true <;>
        simp [if_pos hP, writeOk, hb, updateStatus]
    · simp [if_neg hP]

theorem createReceiptWithItemsV1_sites (db : DB) (ps rs : String) (oid : Nat)
    (form : ReceiveForm) (wf : Nat → Bool) :
    (∀ rc ∈ (createReceiptWithItemsV1 db ps rs oid form wf).db.receipts,
        rc ∈ db.receipts ∨ rc.site = chooseSite db ps rs oid) ∧
    (∀ r ∈ (createReceiptWithItemsV1 db ps rs oid form wf).db.inventory,
        r ∈ db.inventory ∨ r.site = chooseSite db ps rs oid) := by
  unfold createReceiptWithItemsV1
  by_cases hs : chooseSite db ps rs oid = ""
  · simp only [if_pos hs]
    exact ⟨fun rc h => Or.inl h, fun r h => Or.inl h⟩
  · simp only [if_neg hs]
    by_cases hemp : (buildEntriesV1 db (chooseSite db ps rs oid) form
        (db.order_items.filter (fun it => it.order_id == oid))).isEmpty
    · simp only [if_pos hemp]
      exact ⟨fun rc h => Or.inl h, fun r h => Or.inl h⟩
    · simp only [if_neg hemp]
      by_cases h0 : wf 0 = true
      · simp only [if_pos h0]
        exact ⟨fun rc h => Or.inl h, fun r h => Or.inl h⟩
      · simp only [if_neg h0]
        split
        · rename_i db1 c1 err1 heq
          have hrec := runEntriesV1_receipts (chooseSite db ps rs oid) oid db.nextId
            (buildEntriesV1 db (chooseSite db ps rs oid) form
              (db.order_items.filter (fun it => it.order_id == oid)))
            ({ db with nextId := db.nextId + 1, receipts := db.receipts ++ [⟨db.nextId, oid, chooseSite db ps rs oid⟩] })
            ⟨wf, 1⟩
          rw [heq] at hrec
          have hinv := runEntriesV1_inventory_site (chooseSite db ps rs oid) oid db.nextId
            (buildEntriesV1 db (chooseSite db ps rs oid) form
              (db.order_items.filter (fun it => it.order_id == oid)))
            ({ db with nextId := db.nextId + 1, receipts := db.receipts ++ [⟨db.nextId, oid, chooseSite db ps rs oid⟩] })
            ⟨wf, 1⟩
          rw [heq] at hinv
          constructor
          · intro rc hrc
            show rc ∈ db.receipts ∨ rc.site = chooseSite db ps rs oid
            have hrc' : rc ∈ db1.receipts := hrc
            rw [hrec] at hrc'
            rcases List.mem_append.mp hrc' with hold | hnew
            · exact Or.inl hold
            · right
              simp only [List.mem_singleton] at hnew
              rw [hnew]
          · intro r hr
            have hr' : r ∈ db1.inventory := hr
            exact hinv r hr'
        · rename_i db1 c1 heq
          have hrec := runEntriesV1_receipts (chooseSite db ps rs oid) oid db.nextId
            (buildEntriesV1 db (chooseSite db ps rs oid) form
              (db.order_items.filter (fun it => it.order_id == oid)))
            ({ db with nextId := db.nextId + 1, receipts := db.receipts ++ [⟨db.nextId, oid, chooseSite db ps rs oid⟩] })
            ⟨wf, 1⟩
          rw [heq] at hrec
          have hinv := runEntriesV1_inventory_site (chooseSite db ps rs oid) oid db.nextId
            (buildEntriesV1 db (chooseSite db ps rs oid) form
              (db.order_items.filter (fun it => it.order_id == oid)))
            ({ db with nextId := db.nextId + 1, receipts := db.receipts ++ [⟨db.nextId, oid, chooseSite db ps rs oid⟩] })
            ⟨wf, 1⟩
          rw [heq] at hinv
          have hm1 := maybeMarkOrderPartialRecv_fields db1 oid c1
          have hm2 := maybeMarkOrderReceived_fields
            (maybeMarkOrderPartialRecv db1 oid c1).1 oid (maybeMarkOrderPartialRecv db1 oid c1).2
          constructor
          · intro rc hrc
            have hrc' : rc ∈ ((maybeMarkOrderReceived (maybeMarkOrderPartialRecv db1 oid c1).1
                oid (maybeMarkOrderPartialRecv db1 oid c1).2).1).receipts := hrc
            rw [hm2.1, hm1.1, hrec] at hrc'
            rcases List.mem_append.mp hrc' with hold | hnew
            · exact Or.inl hold
            · right
              simp only [List.mem_singleton] at hnew
              rw [hnew]
          · intro r hr
            have hr' : r ∈ ((maybeMarkOrderReceived (maybeMarkOrderPartialRecv db1 oid c1).1
                oid (maybeMarkOrderPartialRecv db1 oid c1).2).1).inventory := hr
            rw [hm2.2, hm1.2] at hr'
            exact hinv r hr'

/-- Claim C10: site selection of the receiving paths.  The profile's
assigned site always wins; the form's receiving site is used only when no
profile site is set; the order's own site is used only when both are empty.
On success the new receipt row carries exactly that chosen site, and every
receipt or inventory row the older path adds or modifies carries it too. -/
theorem receipt_site_precedence (db : DB) (ps rs : String) (oid : Nat)
    (form : ReceiveForm) (wf : Nat → Bool) :
    (ps ≠ "" → chooseSite db ps rs oid = ps) ∧
    (ps = "" → rs ≠ "" → chooseSite db ps rs oid = rs) ∧
    (ps = "" → rs = "" → chooseSite db ps rs oid =
      (((db.orders.find? (fun o => o.id == oid)).map (fun o => o.site)).getD "")) ∧
    ((createReceiptWithItems db ps rs oid form wf).err = none →
      (createReceiptWithItems db ps rs oid form wf).db.receipts =
        db.receipts ++ [⟨db.nextId, oid, chooseSite db ps rs oid⟩]) ∧
    (∀ rc ∈ (createReceiptWithItemsV1 db ps rs oid form wf).db.receipts,
        rc ∈ db.receipts ∨ rc.site = chooseSite db ps rs oid) ∧
    (∀ r ∈ (createReceiptWithItemsV1 db ps rs oid form wf).db.inventory,
        r ∈ db.inventory ∨ r.site = chooseSite db ps rs oid) := by
  refine ⟨?_, ?_, ?_, ?_, (createReceiptWithItemsV1_sites db ps rs oid form wf).1,
    (createReceiptWithItemsV1_sites db ps rs oid form wf).2⟩
  · intro h
    simp [chooseSite, h]
  · intro h1 h2
    simp [chooseSite, h1, h2]
  · intro h1 h2
    simp [chooseSite, h1, h2]
  · intro hok
    have hout : createReceiptWithItems db ps rs oid form wf =
        ⟨(createReceiptWithItems db ps rs oid form wf).db, none⟩ := by
      rw [← hok]
    obtain ⟨lines, hlines, hne, hdb⟩ := createReceiptWithItems_ok_inv hout
    rw [hdb]


/-- Claim C2 witness: the conservation theorem applied to a concrete
two-line order received in full. -/
theorem overreceipt_aborts_and_conservation_witness :
    ((dbTwoLinesEx.order_items.map (fun it => it.id)).Nodup) ∧
    (∀ it ∈ dbTwoLinesEx.order_items, receivedFor dbTwoLinesEx it.id ≤ it.qty) ∧
    ((∀ i, (createReceiptWithItems dbTwoLinesEx "" "S1" 1 formFullEx noFail).err =
          some (.overReceipt i) →
        (createReceiptWithItems dbTwoLinesEx "" "S1" 1 formFullEx noFail).db = dbTwoLinesEx) ∧
     ((createReceiptWithItems dbTwoLinesEx "" "S1" 1 formFullEx noFail).err = none →
        ∀ it ∈ dbTwoLinesEx.order_items,
          receivedFor (createReceiptWithItems dbTwoLinesEx "" "S1" 1 formFullEx noFail).db
            it.id ≤ it.qty)) :=
  ⟨by decide, by decide,
    overreceipt_aborts_and_conservation dbTwoLinesEx "" "S1" 1 formFullEx noFail
      (by decide) (by decide)⟩

/-- Claim C4 witness: the sticky-location theorem applied twice — to a store
with a known location "B7" for (S1, part 5) and a form typing "Z9" (the
override branch), and to a store with no known location and a
whitespace-only form entry (the LocationRequired branch, which fires and
leaves the state unchanged). -/
theorem sticky_location_policy_witness :
    ((dbKnownLocEx.order_items.map (fun x => x.id)).Nodup) ∧
    (∀ r ∈ (createReceiptWithItems dbKnownLocEx "" "S1" 1 formLocZ9 noFail).db.receipt_items.drop
        dbKnownLocEx.receipt_items.length,
      ∀ it ∈ dbKnownLocEx.order_items, it.id = r.order_item_id →
      ∀ l0, knownLocationBySitePart dbKnownLocEx.inventory
          (chooseSite dbKnownLocEx "" "S1" 1) it.part_id = some l0 →
        r.location = some l0) ∧
    ((createReceiptWithItems dbOrderedEx "" "S1" 1 formNoLocEx noFail).err =
        some (.locationRequired 10) ∧
      (createReceiptWithItems dbOrderedEx "" "S1" 1 formNoLocEx noFail).db = dbOrderedEx) :=
  ⟨by decide,
   (sticky_location_policy dbKnownLocEx "" "S1" 1 formLocZ9 noFail (by decide)).1,
   (sticky_location_policy dbOrderedEx "" "S1" 1 formNoLocEx noFail (by decide)).2.2
     ⟨10, 1, some 5, none, 10⟩ [] 4 (by decide) (by decide) (by decide) (by decide)
     (by decide) (by decide) (by decide)⟩

/-- Claim C5 witness: the recompute characterization applied to a concrete
order (3 ordered, 1 received). -/
theorem recompute_status_characterization_witness :
    (dbCancelledEx.orders.find? (fun x => x.id == 1) =
      some ⟨1, 50, "S1", Status.cancelled⟩) ∧
    statusOf (maybeMarkOrderReceived
        (maybeMarkOrderPartialRecv dbCancelledEx 1 ⟨noFail, 0⟩).1 1
        (maybeMarkOrderPartialRecv dbCancelledEx 1 ⟨noFail, 0⟩).2).1 1 =
      some (if 0 < qtyOrderedOf dbCancelledEx 1 ∧
              qtyOrderedOf dbCancelledEx 1 ≤ qtyReceivedOf dbCancelledEx 1
            then Status.received
            else if 0 < qtyOrderedOf dbCancelledEx 1 ∧ 0 < qtyReceivedOf dbCancelledEx 1 ∧
                qtyReceivedOf dbCancelledEx 1 < qtyOrderedOf dbCancelledEx 1
            then Status.partially_received
            else (⟨1, 50, "S1", Status.cancelled⟩ : Order).status) :=
  ⟨by decide, recompute_status_characterization dbCancelledEx 1 0
    ⟨1, 50, "S1", Status.cancelled⟩ (by decide)⟩

/-- Claim C6 witness: the validation-failure theorem applied to a concrete
over-receiving call. -/
theorem validation_failure_leaves_state_witness :
    (((createReceiptWithItems dbTwoLinesEx "" "S1" 1 formOverEx noFail).err).isSome = true) ∧
    (createReceiptWithItems dbTwoLinesEx "" "S1" 1 formOverEx noFail).db = dbTwoLinesEx :=
  ⟨by decide, validation_failure_leaves_state dbTwoLinesEx "" "S1" 1 formOverEx (by decide)⟩

/-- Claim C8 witness: the terminal-state theorem applied to a concrete
cancelled order with a partial receipt. -/
theorem terminal_states_not_guarded_witness :
    (dbCancelledEx.orders.find? (fun x => x.id == 1) =
      some ⟨1, 50, "S1", Status.cancelled⟩) ∧
    (0 < qtyOrderedOf dbCancelledEx 1 ∧ 0 < qtyReceivedOf dbCancelledEx 1 ∧
      qtyReceivedOf dbCancelledEx 1 < qtyOrderedOf dbCancelledEx 1) ∧
    (statusOf (setOrderStatus dbCancelledEx 1 Status.draft) 1 = some Status.draft ∧
     statusOf (maybeMarkOrderPartialRecv dbCancelledEx 1 ⟨noFail, 0⟩).1 1 =
       some Status.partially_received) :=
  ⟨by decide, by decide,
    terminal_states_not_guarded dbCancelledEx 1 Status.draft
      ⟨1, 50, "S1", Status.cancelled⟩ (by decide) (Or.inl rfl) (by decide) (by decide)⟩

/-- Claim C9 witness: the unresolved-line theorem applied to a concrete
order whose only line has part_id null. -/
theorem null_part_line_creates_receipt_item_witness :
    ((⟨10, 1, none, some "X-789", 10⟩ : OrderItem) ∈ dbNullPartEx.order_items) ∧
    ((createReceiptWithItems dbNullPartEx "" "S1" 1 formRecv4 noFail).err = none) ∧
    (∃ r ∈ (createReceiptWithItems dbNullPartEx "" "S1" 1 formRecv4 noFail).db.receipt_items.drop
        dbNullPartEx.receipt_items.length,
      r.order_item_id = (⟨10, 1, none, some "X-789", 10⟩ : OrderItem).id ∧
      r.qty_received = 4) :=
  ⟨by decide, by decide,
    null_part_line_creates_receipt_item dbNullPartEx "" "S1" 1 formRecv4 noFail
      ⟨10, 1, none, some "X-789", 10⟩ (by decide) (by decide) (by decide) 4
      (by decide) (by decide) (by decide) (by decide)⟩

/-- Claim C10 witness: the site-precedence theorem applied to a profile site
"P", a form site "F" and a concrete order at site "S1". -/
theorem receipt_site_precedence_witness :
    (("P" : String) ≠ "" → chooseSite dbOrderedEx "P" "F" 1 = "P") ∧
    (("P" : String) = "" → ("F" : String) ≠ "" → chooseSite dbOrderedEx "P" "F" 1 = "F") ∧
    (("P" : String) = "" → ("F" : String) = "" → chooseSite dbOrderedEx "P" "F" 1 =
      (((dbOrderedEx.orders.find? (fun o => o.id == 1)).map (fun o => o.site)).getD "")) ∧
    ((createReceiptWithItems dbOrderedEx "P" "F" 1 formRecv4 noFail).err = none →
      (createReceiptWithItems dbOrderedEx "P" "F" 1 formRecv4 noFail).db.receipts =
        dbOrderedEx.receipts ++ [⟨dbOrderedEx.nextId, 1, chooseSite dbOrderedEx "P" "F" 1⟩]) ∧
    (∀ rc ∈ (createReceiptWithItemsV1 dbOrderedEx "P" "F" 1 formRecv4 noFail).db.receipts,
        rc ∈ dbOrderedEx.receipts ∨ rc.site = chooseSite dbOrderedEx "P" "F" 1) ∧
    (∀ r ∈ (createReceiptWithItemsV1 dbOrderedEx "P" "F" 1 formRecv4 noFail).db.inventory,
        r ∈ dbOrderedEx.inventory ∨ r.site = chooseSite dbOrderedEx "P" "F" 1) :=
  receipt_site_precedence dbOrderedEx "P" "F" 1 formRecv4 noFail

end MonApp
